import Mathlib

/-!
Verification of the cart/transaction calculator and the paginated
catalog loader of the sepatusovan point-of-sale client.

Shallow embedding conventions:
* JavaScript numbers are embedded as `ℚ` (the money arithmetic in the
  sources is exact decimal arithmetic well inside the double range).
* `parseFloat` is an external JS primitive; its outcome is embedded as
  `Option ℚ` (`none` = `NaN`, `some t` = a finite parse).
* JS `x || y` on numbers (falsy `0`/`NaN` replaced by `y`) is `jsOrQ` /
  `jsOrNat`; `a ?? b` is `Option.getD`.
* Strings are Lean `String`s; `toLowerCase` is ASCII `Char.toLower`
  mapped over the characters.
-/

/-- JS `x || y` for numbers: `NaN` (here `none`) and `0` are falsy. -/
def jsOrQ (x : Option ℚ) (y : ℚ) : ℚ :=
  match x with
  | none => y
  | some t => if t = 0 then y else t

/-- JS `x || y` for a possibly-missing nonnegative integer field (`0` is falsy). -/
def jsOrNat (x : Option Nat) (y : Nat) : Nat :=
  match x with
  | none => y
  | some n => if n = 0 then y else n

/-- JS `s.toLowerCase()` (ASCII). -/
def jsToLower (s : String) : String :=
  String.mk (s.data.map Char.toLower)

namespace PartFour

/-- The `Unit` interface of the TransactionCreate screen in
`src/unnamed/part_004` (a flattened sellable unit of the catalog). -/
structure Unit where
  product_id : Int
  product_name : String
  brand : String
  model : String
  color : String
  size : String
  unit_code : String
  qr_code : Option String
  selling_price : ℚ
  discount_price : Option ℚ
  stock : Int
  is_active : Int
deriving DecidableEq, Repr

/-- The `CartItem` interface of `src/unnamed/part_004`. -/
structure CartItem where
  product_id : Int
  name : String
  brand : String
  model : String
  color : String
  size : String
  unit_code : String
  selling_price : ℚ
  discount_price : Option ℚ
  quantity : ℚ
deriving DecidableEq, Repr

/-- The named reasons with which `addToCart` rejects an add (spec §7). -/
inductive AddReason where
  | duplicateUnit
  | outOfStock
  | inactiveUnit
deriving DecidableEq, Repr

/-- The `CartItem` literal built inside `addToCart` (part_004 lines 309-320). -/
def newCartItem (u : Unit) : CartItem :=
  { product_id := u.product_id
    name := u.product_name
    brand := u.brand
    model := u.model
    color := u.color
    size := u.size
    selling_price := u.selling_price
    discount_price := u.discount_price
    unit_code := u.unit_code
    quantity := 1 }

/-- `addToCart` of `src/unnamed/part_004` (lines 283-332): checks, in
order, the case-insensitive duplicate of `unit_code` in the cart, then
`stock <= 0`, then `is_active !== 1`; a rejection leaves the cart
unchanged and surfaces the popup of the corresponding reason, otherwise
the new item with `quantity = 1` is appended. -/
def addToCart (cart : List CartItem) (u : Unit) : List CartItem × Option AddReason :=
  if cart.any (fun item => jsToLower item.unit_code = jsToLower u.unit_code) then
    (cart, some .duplicateUnit)
  else if u.stock ≤ 0 then
    (cart, some .outOfStock)
  else if u.is_active ≠ 1 then
    (cart, some .inactiveUnit)
  else
    (cart ++ [newCartItem u], none)

/-- `calculateSubtotal` of `src/unnamed/part_004` (lines 338-343):
`cart.reduce((total, item) => total + (item.discount_price ?? item.selling_price) * item.quantity, 0)`. -/
def calculateSubtotal (cart : List CartItem) : ℚ :=
  cart.foldl (fun total item => total + (item.discount_price.getD item.selling_price) * item.quantity) 0

/-- `calculateDiscount` of `src/unnamed/part_004` (lines 345-349):
`Math.max(0, subtotal - (parseFloat(newTotal) || 0))`. -/
def calculateDiscount (cart : List CartItem) (newTotal : Option ℚ) : ℚ :=
  max 0 (calculateSubtotal cart - jsOrQ newTotal 0)

/-- `calculateTotal` of `src/unnamed/part_004` (lines 351-354):
`Math.max(0, isNaN(parseFloat(newTotal)) ? calculateSubtotal() : parseFloat(newTotal))`. -/
def calculateTotal (cart : List CartItem) (newTotal : Option ℚ) : ℚ :=
  max 0 (match newTotal with
         | none => calculateSubtotal cart
         | some t => t)

/-- The one-item example cart of spec §8 Scenario B:
`{unitCode: "U1", sellingPrice: 100000, discountPrice: 80000, quantity: 1}`. -/
def scenarioCart : List CartItem :=
  [{ product_id := 1
     name := "example"
     brand := "B"
     model := "M"
     color := "-"
     size := "-"
     unit_code := "U1"
     selling_price := 100000
     discount_price := some 80000
     quantity := 1 }]

/-- The lowercased unit codes of a cart, in order. -/
def lowerCodes (cart : List CartItem) : List String :=
  cart.map (fun item => jsToLower item.unit_code)

/-- A sequence of `addToCart` calls applied to a cart (each call's
rejection popup is dropped; the cart state threads through). -/
def runAdds (cart : List CartItem) (adds : List Unit) : List CartItem :=
  adds.foldl (fun c u => (addToCart c u).1) cart

/-- `handleNewTotalChange` of `src/unnamed/part_004` (lines 619-637): the
update the handler applies to the stored `newTotal` field and whether it
raises the invalid-override popup. -/
inductive OverrideAction where
  | keep
  | clampToSubtotal
  | clear
deriving DecidableEq, Repr

/-- `handleNewTotalChange` of `src/unnamed/part_004` (lines 619-637):
`total = parseFloat(text)`; `total > subtotal` clamps the field to
`subtotal` with a popup; else `total < 0` clears the field with a popup;
otherwise (including `NaN`, for which both comparisons are false) the
typed text is kept and no popup is raised. -/
def handleNewTotalChange (cart : List CartItem) (input : Option ℚ) : OverrideAction × Bool :=
  match input with
  | none => (.keep, false)
  | some t =>
    if t > calculateSubtotal cart then (.clampToSubtotal, true)
    else if t < 0 then (.clear, true)
    else (.keep, false)

/-- A unit whose code duplicates the Scenario B cart entry while having
zero stock (for claim C3's reason-priority counterexample). -/
def dupOosUnit : Unit :=
  { product_id := 2
    product_name := "p"
    brand := "B"
    model := "M"
    color := "-"
    size := "-"
    unit_code := "U1"
    qr_code := none
    selling_price := 100
    discount_price := none
    stock := 0
    is_active := 1 }

/-- An out-of-stock active unit not present in the empty cart (witness
input for the amended claim C3). -/
def oosUnit : Unit :=
  { product_id := 3
    product_name := "q"
    brand := "B"
    model := "M"
    color := "-"
    size := "-"
    unit_code := "U9"
    qr_code := none
    selling_price := 100
    discount_price := none
    stock := 0
    is_active := 1 }

end PartFour

namespace PartFour

theorem addToCart_nodup (cart : List CartItem) (u : Unit)
    (h : (lowerCodes cart).Nodup) : (lowerCodes ((addToCart cart u).1)).Nodup := by
  unfold addToCart
  split_ifs with h1 h2 h3
  · exact h
  · exact h
  · exact h
  · have hnot : jsToLower u.unit_code ∉ lowerCodes cart := by
      intro hmem
      rcases List.mem_map.mp hmem with ⟨item, hitem, heq⟩
      exact h1 (List.any_eq_true.mpr ⟨item, hitem, decide_eq_true heq⟩)
    simp only [lowerCodes, List.map_append, List.map_cons, List.map_nil]
    rw [List.nodup_append]
    refine ⟨h, List.nodup_singleton _, ?_⟩
    intro a ha hb
    rw [List.mem_singleton] at hb
    subst hb
    exact hnot ha

theorem runAdds_nodup (adds : List Unit) :
    ∀ cart : List CartItem, (lowerCodes cart).Nodup → (lowerCodes (runAdds cart adds)).Nodup := by
  induction adds with
  | nil => intro cart h; simpa [runAdds] using h
  | cons u rest ih =>
      intro cart h
      have := ih ((addToCart cart u).1) (addToCart_nodup cart u h)
      simpa [runAdds] using this

end PartFour

/-- Claim C2: every sequence of `addToCart` calls starting from the empty
cart yields a cart whose lowercased unit codes are pairwise distinct — at
most one `CartItem` per case-insensitive `unitCode` — and an add whose
`unitCode` already appears case-insensitively in the cart is rejected
with the `DuplicateUnit` reason, leaving the cart unchanged. -/
theorem addToCart_dedup :
    (∀ adds : List PartFour.Unit,
      (PartFour.lowerCodes (PartFour.runAdds [] adds)).Nodup) ∧
    (∀ (cart : List PartFour.CartItem) (u : PartFour.Unit),
      (∃ item ∈ cart, jsToLower item.unit_code = jsToLower u.unit_code) →
      PartFour.addToCart cart u = (cart, some PartFour.AddReason.duplicateUnit)) := by
  constructor
  · intro adds
    exact PartFour.runAdds_nodup adds [] (by simp [PartFour.lowerCodes])
  · rintro cart u ⟨item, hitem, heq⟩
    unfold PartFour.addToCart
    rw [if_pos]
    exact List.any_eq_true.mpr ⟨item, hitem, decide_eq_true heq⟩

/-- Counterexample to claim C3 as stated: for the Scenario B cart (which
already holds `unit_code "U1"`) and a zero-stock unit with the same code,
`addToCart` rejects with `DuplicateUnit`, not with the claimed
`OutOfStock` reason — the duplicate check runs before the stock check. -/
theorem addToCart_gating_counterexample :
    PartFour.dupOosUnit.stock ≤ 0 ∧
    (PartFour.addToCart PartFour.scenarioCart PartFour.dupOosUnit).2
      = some PartFour.AddReason.duplicateUnit ∧
    some PartFour.AddReason.duplicateUnit ≠ some PartFour.AddReason.outOfStock := by
  refine ⟨by decide, ?_, by decide⟩
  decide

/-- Amended claim C3: `addToCart` never inserts a unit with `stock ≤ 0`
or `is_active ≠ 1` — the cart (hence its length) is unchanged — and the
reason returned is `OutOfStock` (respectively `InactiveUnit`, when the
stock is positive) provided the unit's code is not already in the cart;
a unit that is also a case-insensitive duplicate is rejected with
`DuplicateUnit` instead. -/
theorem addToCart_gating (cart : List PartFour.CartItem) (u : PartFour.Unit)
    (hbad : u.stock ≤ 0 ∨ u.is_active ≠ 1) :
    (PartFour.addToCart cart u).1 = cart ∧
    ((PartFour.addToCart cart u).1).length = cart.length ∧
    ((¬ ∃ item ∈ cart, jsToLower item.unit_code = jsToLower u.unit_code) →
      u.stock ≤ 0 →
      (PartFour.addToCart cart u).2 = some PartFour.AddReason.outOfStock) ∧
    ((¬ ∃ item ∈ cart, jsToLower item.unit_code = jsToLower u.unit_code) →
      0 < u.stock →
      (PartFour.addToCart cart u).2 = some PartFour.AddReason.inactiveUnit) := by
  have key : (PartFour.addToCart cart u).1 = cart ∧
      ((¬ ∃ item ∈ cart, jsToLower item.unit_code = jsToLower u.unit_code) →
        u.stock ≤ 0 →
        (PartFour.addToCart cart u).2 = some PartFour.AddReason.outOfStock) ∧
      ((¬ ∃ item ∈ cart, jsToLower item.unit_code = jsToLower u.unit_code) →
        0 < u.stock →
        (PartFour.addToCart cart u).2 = some PartFour.AddReason.inactiveUnit) := by
    unfold PartFour.addToCart
    split_ifs with h1 h2 h3
    · have hex : ∃ item ∈ cart, jsToLower item.unit_code = jsToLower u.unit_code := by
        rcases List.any_eq_true.mp h1 with ⟨item, hitem, hdec⟩
        exact ⟨item, hitem, of_decide_eq_true hdec⟩
      exact ⟨rfl, fun hne _ => absurd hex hne, fun hne _ => absurd hex hne⟩
    · exact ⟨rfl, fun _ _ => rfl, fun _ hpos => absurd h2 (by omega)⟩
    · exact ⟨rfl, fun _ hs => absurd hs h2, fun _ _ => rfl⟩
    · exfalso
      rcases hbad with hs | ha
      · exact h2 hs
      · exact ha (not_not.mp h3)
  exact ⟨key.1, by rw [key.1], key.2.1, key.2.2⟩

/-- Witness for the amended claim C3: adding the zero-stock unit `oosUnit`
to the empty cart leaves it empty and returns the `OutOfStock` reason. -/
theorem addToCart_gating_witness :
    (PartFour.addToCart [] PartFour.oosUnit).1 = [] ∧
    (PartFour.addToCart [] PartFour.oosUnit).2 = some PartFour.AddReason.outOfStock := by
  have h := addToCart_gating [] PartFour.oosUnit (Or.inl (by decide))
  exact ⟨h.1, h.2.2.1 (by simp) (by decide)⟩

/-- Counterexample to claim C4 as stated: an unparsable override input
(`parseFloat` gives `NaN`, embedded as `none`) is neither cleared nor
signalled — the handler keeps the typed text and raises no popup,
because both `NaN > subtotal` and `NaN < 0` are false. -/
theorem newTotal_validation_counterexample :
    PartFour.handleNewTotalChange PartFour.scenarioCart none
      = (PartFour.OverrideAction.keep, false) ∧
    (PartFour.OverrideAction.keep, false) ≠ (PartFour.OverrideAction.clear, true) := by
  exact ⟨rfl, by decide⟩

/-- Amended claim C4: an override parsing strictly above the subtotal is
clamped down to the subtotal with a rejection popup (and re-computing the
totals at the clamped value yields `discount 0`, `total = subtotal`); a
negative override is cleared with a rejection popup; an override in
`[0, subtotal]` is kept silently; an unparsable override is kept as
typed with no popup (it is not cleared). -/
theorem newTotal_validation (cart : List PartFour.CartItem) (t : ℚ)
    (hs : 0 ≤ PartFour.calculateSubtotal cart) :
    (t > PartFour.calculateSubtotal cart →
      PartFour.handleNewTotalChange cart (some t)
        = (PartFour.OverrideAction.clampToSubtotal, true) ∧
      PartFour.calculateDiscount cart (some (PartFour.calculateSubtotal cart)) = 0 ∧
      PartFour.calculateTotal cart (some (PartFour.calculateSubtotal cart))
        = PartFour.calculateSubtotal cart) ∧
    (t < 0 → PartFour.handleNewTotalChange cart (some t)
        = (PartFour.OverrideAction.clear, true)) ∧
    (0 ≤ t → t ≤ PartFour.calculateSubtotal cart →
      PartFour.handleNewTotalChange cart (some t) = (PartFour.OverrideAction.keep, false)) ∧
    PartFour.handleNewTotalChange cart none = (PartFour.OverrideAction.keep, false) := by
  refine ⟨?_, ?_, ?_, rfl⟩
  · intro hgt
    refine ⟨by simp [PartFour.handleNewTotalChange, hgt], ?_, ?_⟩
    · unfold PartFour.calculateDiscount jsOrQ
      rcases eq_or_ne (PartFour.calculateSubtotal cart) 0 with hz | hz
      · simp [hz]
      · simp only [if_neg hz]
        simp
    · unfold PartFour.calculateTotal
      simpa using hs
  · intro hlt
    have hngt : ¬ t > PartFour.calculateSubtotal cart := by linarith
    simp [PartFour.handleNewTotalChange, hngt, hlt]
  · intro h0 h1
    have hngt : ¬ t > PartFour.calculateSubtotal cart := by linarith
    have hnlt : ¬ t < 0 := by linarith
    simp [PartFour.handleNewTotalChange, hngt, hnlt]

/-- Witness for the amended claim C4: spec §8 Scenario C — on the
Scenario B cart (subtotal 80000) the override `"90000"` is clamped with a
popup, and the clamped totals are `{subtotal 80000, discount 0, total
80000}`. -/
theorem newTotal_validation_witness :
    PartFour.handleNewTotalChange PartFour.scenarioCart (some 90000)
      = (PartFour.OverrideAction.clampToSubtotal, true) ∧
    PartFour.calculateDiscount PartFour.scenarioCart (some 80000) = 0 ∧
    PartFour.calculateTotal PartFour.scenarioCart (some 80000) = 80000 := by
  have hsub : PartFour.calculateSubtotal PartFour.scenarioCart = 80000 := by
    unfold PartFour.calculateSubtotal PartFour.scenarioCart
    norm_num
  have h := (newTotal_validation PartFour.scenarioCart 90000 (by rw [hsub]; norm_num)).1
    (by rw [hsub]; norm_num)
  rw [hsub] at h
  exact h

/-- Claim C1: for every cart and every override input that parses as a
finite number `t` with `0 ≤ t ≤ subtotal`, the part_004 calculator
returns exactly `subtotal`, `discount = subtotal - t` and `total = t`;
hence `discount = max 0 (subtotal - total)` and `total ≤ subtotal`. -/
theorem computeTotals_valid_override (cart : List PartFour.CartItem) (t : ℚ)
    (h0 : 0 ≤ t) (h1 : t ≤ PartFour.calculateSubtotal cart) :
    PartFour.calculateDiscount cart (some t) = PartFour.calculateSubtotal cart - t ∧
    PartFour.calculateTotal cart (some t) = t ∧
    PartFour.calculateDiscount cart (some t)
      = max 0 (PartFour.calculateSubtotal cart - PartFour.calculateTotal cart (some t)) ∧
    PartFour.calculateTotal cart (some t) ≤ PartFour.calculateSubtotal cart := by
  have hdisc : PartFour.calculateDiscount cart (some t) = PartFour.calculateSubtotal cart - t := by
    unfold PartFour.calculateDiscount jsOrQ
    rcases eq_or_ne t 0 with rfl | ht
    · simp
      linarith
    · simp [ht]
      linarith
  have htot : PartFour.calculateTotal cart (some t) = t := by
    unfold PartFour.calculateTotal
    simpa using h0
  refine ⟨hdisc, htot, ?_, ?_⟩
  · rw [hdisc, htot]
    have : (0 : ℚ) ≤ PartFour.calculateSubtotal cart - t := by linarith
    exact (max_eq_right this).symm
  · rw [htot]; exact h1

/-- Witness for C1: spec §8 Scenario B — the one-item cart with
`sellingPrice 100000`, `discountPrice 80000`, `quantity 1` and override
`"80000"` yields `subtotal 80000`, `discount 0`, `total 80000`. -/
theorem computeTotals_valid_override_witness :
    PartFour.calculateSubtotal PartFour.scenarioCart = 80000 ∧
    PartFour.calculateDiscount PartFour.scenarioCart (some 80000) = 0 ∧
    PartFour.calculateTotal PartFour.scenarioCart (some 80000) = 80000 := by
  have hsub : PartFour.calculateSubtotal PartFour.scenarioCart = 80000 := by
    unfold PartFour.calculateSubtotal PartFour.scenarioCart
    norm_num
  have h := computeTotals_valid_override PartFour.scenarioCart 80000 (by norm_num) (by rw [hsub])
  exact ⟨hsub, by rw [h.1, hsub]; norm_num, h.2.1⟩

/-- Generic outcome of a whole catalog load. -/
inductive LoadResult (α : Type) where
  | success (value : α)
  | failure
deriving DecidableEq, Repr

/-- JS `x || y` for a possibly-missing integer (`0` is falsy). -/
def jsOrInt (x : Option Int) (y : Int) : Int :=
  match x with
  | none => y
  | some n => if n = 0 then y else n

namespace TCreate

/-- The `Unit` interface of `src/app/components/TransactionCreate.tsx`
(lines 29-38); this screen variant drops `is_active` and `qr_code` in
its mapping. -/
structure Unit where
  product_id : Int
  product_name : String
  color : String
  size : String
  unit_code : String
  selling_price : ℚ
  discount_price : Option ℚ
  stock : Int
deriving DecidableEq, Repr

/-- The `CartItem` interface of `src/app/components/TransactionCreate.tsx`
(lines 40-49). -/
structure CartItem where
  product_id : Int
  name : String
  color : String
  size : String
  unit_code : String
  selling_price : ℚ
  discount_price : Option ℚ
  quantity : ℚ
deriving DecidableEq, Repr

/-- The `CartItem` literal built inside this screen's `addToCart`
(lines 266-275). -/
def newCartItem (u : Unit) : CartItem :=
  { product_id := u.product_id
    name := u.product_name
    color := u.color
    size := u.size
    selling_price := u.selling_price
    discount_price := u.discount_price
    unit_code := u.unit_code
    quantity := 1 }

/-- The two cart-tracking state fields of the TransactionCreate screen:
`cart` and `scannedUnitCodes`. -/
structure ScreenState where
  cart : List CartItem
  scannedUnitCodes : List String
deriving DecidableEq, Repr

/-- `addToCart` of `src/app/components/TransactionCreate.tsx` (lines
246-294): rejects `stock <= 0`, then a `unit_code` already in
`scannedUnitCodes` (case-sensitive `includes`); otherwise appends the
new item to `cart` and its code to `scannedUnitCodes`. -/
def addToCart (s : ScreenState) (u : Unit) : ScreenState :=
  if u.stock ≤ 0 then s
  else if s.scannedUnitCodes.contains u.unit_code then s
  else { cart := s.cart ++ [newCartItem u]
         scannedUnitCodes := s.scannedUnitCodes ++ [u.unit_code] }

/-- JS `list.filter((_, i) => i !== index)`. -/
def removeAtIdx {α : Type} (l : List α) (idx : Nat) : List α :=
  (l.enum.filter (fun p => p.1 ≠ idx)).map Prod.snd

/-- `removeItem` of `src/app/components/TransactionCreate.tsx` (lines
296-299): filters index `idx` out of both `cart` and `scannedUnitCodes`. -/
def removeItem (s : ScreenState) (idx : Nat) : ScreenState :=
  { cart := removeAtIdx s.cart idx
    scannedUnitCodes := removeAtIdx s.scannedUnitCodes idx }

/-- The state clearing performed on successful submission
(`submitTransaction`, lines 413-422): both lists are reset to `[]`. -/
def clearOnSubmit (_ : ScreenState) : ScreenState :=
  { cart := [], scannedUnitCodes := [] }

/-- One cart-affecting operation of the screen. -/
inductive ScreenOp where
  | add (u : Unit)
  | remove (idx : Nat)
  | submitSuccess
deriving DecidableEq, Repr

/-- Applying one operation to the screen state. -/
def applyOp (s : ScreenState) : ScreenOp → ScreenState
  | .add u => addToCart s u
  | .remove idx => removeItem s idx
  | .submitSuccess => clearOnSubmit s

/-- Running a sequence of operations. -/
def runOps (s : ScreenState) (ops : List ScreenOp) : ScreenState :=
  ops.foldl applyOp s

/-- The initial screen state: empty cart, empty scanned-code list. -/
def initialState : ScreenState :=
  { cart := [], scannedUnitCodes := [] }

theorem map_removeAtIdx {α β : Type} (f : α → β) (l : List α) (idx : Nat) :
    removeAtIdx (l.map f) idx = (removeAtIdx l idx).map f := by
  unfold removeAtIdx
  rw [List.enum_map]
  simp [List.filter_map, List.map_map, Function.comp_def, Prod.map]

theorem applyOp_tracks (s : ScreenState) (op : ScreenOp)
    (h : s.scannedUnitCodes = s.cart.map CartItem.unit_code) :
    (applyOp s op).scannedUnitCodes = (applyOp s op).cart.map CartItem.unit_code := by
  cases op with
  | add u =>
      show (addToCart s u).scannedUnitCodes = (addToCart s u).cart.map CartItem.unit_code
      unfold addToCart
      split_ifs with h1 h2
      · exact h
      · exact h
      · simp only [List.map_append, List.map_cons, List.map_nil]
        rw [h]
        rfl
  | remove idx =>
      unfold applyOp removeItem
      simp only
      rw [h, map_removeAtIdx]
  | submitSuccess => rfl

theorem runOps_tracks (ops : List ScreenOp) :
    ∀ s : ScreenState, s.scannedUnitCodes = s.cart.map CartItem.unit_code →
      (runOps s ops).scannedUnitCodes = (runOps s ops).cart.map CartItem.unit_code := by
  induction ops with
  | nil => intro s h; simpa [runOps] using h
  | cons op rest ih =>
      intro s h
      have := ih (applyOp s op) (applyOp_tracks s op h)
      simpa [runOps] using this

end TCreate

/-- Claim C10: after every sequence of `addToCart`, `removeItem` and
successful-submission clears starting from the initial state,
`scannedUnitCodes` equals the list of `unit_code` fields of the cart
items in the same order; consequently the duplicate check against
`scannedUnitCodes` is equivalent to a duplicate check against the cart
itself. -/
theorem scannedUnitCodes_tracks_cart :
    (∀ ops : List TCreate.ScreenOp,
      (TCreate.runOps TCreate.initialState ops).scannedUnitCodes
        = (TCreate.runOps TCreate.initialState ops).cart.map TCreate.CartItem.unit_code) ∧
    (∀ (s : TCreate.ScreenState) (c : String),
      s.scannedUnitCodes = s.cart.map TCreate.CartItem.unit_code →
      s.scannedUnitCodes.contains c = (s.cart.map TCreate.CartItem.unit_code).contains c) := by
  constructor
  · intro ops
    exact TCreate.runOps_tracks ops TCreate.initialState rfl
  · intro s c h
    rw [h]

namespace TCreate

/-- A raw sub-unit object of the `/api/products` response
(`{unit_code, qr_code, is_active}`). -/
structure RawUnit where
  unit_code : String
  qr_code : String
  is_active : Int
deriving DecidableEq, Repr

/-- A raw product object of the `/api/products` response. Fields whose
presence or type `fetchUnits` checks are embedded as options: `stock`
is `none` when not a number, `units` is `none` when not an array;
`selling_price` holds the `parseFloat` outcome of the wire string
(`none` = `NaN`); `discount_price` is `none` for a falsy (null/empty)
wire value. -/
structure RawProduct where
  id : Int
  name : String
  color : String
  size : String
  selling_price : Option ℚ
  discount_price : Option ℚ
  stock : Option Int
  units : Option (List RawUnit)
deriving DecidableEq, Repr

/-- The validity filter of `fetchUnits` (lines 159-166): the entry is an
object with truthy `id` and `name`, a numeric `stock` and a `units`
array; malformed entries are silently dropped. -/
def validProduct (entry : Option RawProduct) : Bool :=
  match entry with
  | none => false
  | some p => p.id ≠ 0 && p.name ≠ "" && p.stock.isSome && p.units.isSome

/-- The `Unit` built from a product and one of its sub-units
(lines 171-182). -/
def mapUnit (p : RawProduct) (u : RawUnit) : Unit :=
  { product_id := p.id
    product_name := p.name
    color := if p.color = "" then "-" else p.color
    size := if p.size = "" then "-" else p.size
    selling_price := jsOrQ p.selling_price 0
    discount_price := p.discount_price
    unit_code := if u.unit_code = "" then "UNIT-" ++ toString p.id else u.unit_code
    stock := jsOrInt p.stock 0 }

/-- The fallback `Unit` built when a product has no sub-units
(lines 183-196). -/
def fallbackUnit (p : RawProduct) : Unit :=
  { product_id := p.id
    product_name := p.name
    color := if p.color = "" then "-" else p.color
    size := if p.size = "" then "-" else p.size
    selling_price := jsOrQ p.selling_price 0
    discount_price := p.discount_price
    unit_code := "UNIT-" ++ toString p.id
    stock := jsOrInt p.stock 0 }

/-- `units.length > 0 ? units.map(...) : [fallback]` (lines 168-197). -/
def mapProduct (p : RawProduct) : List Unit :=
  let units := p.units.getD []
  if units = [] then [fallbackUnit p] else units.map (mapUnit p)

/-- One page's contribution: the valid products flattened to units
(`validProducts.flatMap(...)`, lines 159-197). -/
def pageUnits (productData : List (Option RawProduct)) : List Unit :=
  (productData.filter validProduct).flatMap (fun entry =>
    match entry with
    | some p => mapProduct p
    | none => [])

/-- The shape of the `data.data?.products` field of one page response:
absent (JS `|| []` substitutes the empty list), present but not an array
(the loop throws), or an array of entries. -/
inductive ProductsField where
  | missing
  | notArray
  | arr (products : List (Option RawProduct))
deriving DecidableEq, Repr

/-- One page response of the catalog endpoint, as `fetchUnits` reads it:
the products field and `data.data?.pagination?.last_page`. -/
structure ApiPage where
  products : ProductsField
  last_page : Option Nat
deriving DecidableEq, Repr

/-- The fixed page size of the loop (line 132). -/
def perPage : Nat := 100

/-- The paginated do/while loop of `fetchUnits`
(`src/app/components/TransactionCreate.tsx` lines 129-202): starting at
page 1 it requests `(page, per_page)`, throws on a non-array products
field, appends the page's units, reads `lastPage = last_page || 1` and
continues while `currentPage <= lastPage` after `currentPage++`. The
embedding is fuel-indexed because termination depends on the server's
reported `last_page`; `none` = fuel exhausted. Each iteration records
the request it issues. -/
def fetchUnitsLoop (server : Nat → ApiPage) :
    Nat → Nat → List Unit → List (Nat × Nat) →
    Option (LoadResult (List Unit) × List (Nat × Nat))
  | 0, _, _, _ => none
  | fuel + 1, currentPage, acc, reqs =>
    let resp := server currentPage
    let reqs' := reqs ++ [(currentPage, perPage)]
    match resp.products with
    | ProductsField.notArray => some (.failure, reqs')
    | ProductsField.missing =>
      let acc' := acc ++ pageUnits []
      let lastPage := jsOrNat resp.last_page 1
      if currentPage + 1 ≤ lastPage then
        fetchUnitsLoop server fuel (currentPage + 1) acc' reqs'
      else
        some (.success acc', reqs')
    | ProductsField.arr ps =>
      let acc' := acc ++ pageUnits ps
      let lastPage := jsOrNat resp.last_page 1
      if currentPage + 1 ≤ lastPage then
        fetchUnitsLoop server fuel (currentPage + 1) acc' reqs'
      else
        some (.success acc', reqs')

/-- The whole load as `fetchUnits` runs it: page 1, empty accumulators,
fuel `n`. -/
def fetchUnits (server : Nat → ApiPage) (fuel : Nat) :
    Option (LoadResult (List Unit) × List (Nat × Nat)) :=
  fetchUnitsLoop server fuel 1 [] []

/-- A demonstration server for the C5 witness: every page returns an
empty products array and reports `last_page = 2`. -/
def demoServer : Nat → ApiPage :=
  fun _ => { products := ProductsField.arr [], last_page := some 2 }

theorem fetchUnitsLoop_spec (server : Nat → ApiPage)
    (pages : Nat → List (Option RawProduct)) (N : Nat)
    (hshape : ∀ p, (server p).products = ProductsField.arr (pages p))
    (hlast : ∀ p, jsOrNat (server p).last_page 1 = N) :
    ∀ (fuel cur : Nat) (acc : List Unit) (reqs : List (Nat × Nat)),
      1 ≤ cur → cur ≤ N → fuel = N + 1 - cur →
      fetchUnitsLoop server fuel cur acc reqs
        = some (.success (acc ++ (List.range' cur (N + 1 - cur)).flatMap
                  (fun p => pageUnits (pages p))),
                reqs ++ (List.range' cur (N + 1 - cur)).map (fun p => (p, perPage))) := by
  intro fuel
  induction fuel with
  | zero =>
      intro cur acc reqs h1 h2 hfuel
      omega
  | succ fuel ih =>
      intro cur acc reqs h1 h2 hfuel
      have hresp := hshape cur
      rw [fetchUnitsLoop]
      rw [hresp]
      simp only
      rw [hlast cur]
      by_cases hlt : cur + 1 ≤ N
      · rw [if_pos hlt]
        have hrec := ih (cur + 1) (acc ++ pageUnits (pages cur))
          (reqs ++ [(cur, perPage)]) (by omega) hlt (by omega)
        rw [hrec]
        have hn : N + 1 - cur = (N - cur) + 1 := by omega
        rw [hn, List.range'_succ]
        simp only [List.flatMap_cons, List.map_cons]
        rw [List.append_assoc, List.append_assoc]
        have hsh : N + 1 - (cur + 1) = N - cur := by omega
        rw [hsh]
        rfl
      · rw [if_neg hlt]
        have hone : N + 1 - cur = 1 := by omega
        rw [hone]
        simp [List.range']

end TCreate

/-- Claim C5: when every page response is well-shaped and reports
`last_page = N ≥ 1`, `fetchUnits` terminates with fuel `N`, issues
exactly the requests `(1, 100), (2, 100), …, (N, 100)` — `N` requests,
page numbers strictly ascending, fixed page size 100 — and returns the
concatenation of the pages' valid units in page order. -/
theorem fetchUnits_pagination (server : Nat → TCreate.ApiPage)
    (pages : Nat → List (Option TCreate.RawProduct)) (N : Nat)
    (hshape : ∀ p, (server p).products = TCreate.ProductsField.arr (pages p))
    (hlast : ∀ p, jsOrNat (server p).last_page 1 = N)
    (hN : 1 ≤ N) :
    TCreate.fetchUnits server N
      = some (.success ((List.range' 1 N).flatMap (fun p => TCreate.pageUnits (pages p))),
              (List.range' 1 N).map (fun p => (p, TCreate.perPage))) ∧
    ((List.range' 1 N).map (fun p => (p, TCreate.perPage))).length = N ∧
    List.Pairwise (· < ·) (((List.range' 1 N).map (fun p => (p, TCreate.perPage))).map Prod.fst) := by
  refine ⟨?_, by simp, ?_⟩
  · have h := TCreate.fetchUnitsLoop_spec server pages N hshape hlast N 1 [] []
      (le_refl 1) hN (by omega)
    unfold TCreate.fetchUnits
    rw [h]
    have : N + 1 - 1 = N := by omega
    rw [this]
    simp
  · have : ((List.range' 1 N).map (fun p => (p, TCreate.perPage))).map Prod.fst
        = List.range' 1 N := by
      rw [List.map_map]
      simp [Function.comp_def]
    rw [this]
    exact List.pairwise_lt_range' 1 N

/-- Witness for C5: a two-page demonstration server (every page reports
`last_page = 2` with an empty products array) makes `fetchUnits` issue
exactly the requests `[(1, 100), (2, 100)]` and succeed with no units. -/
theorem fetchUnits_pagination_witness :
    TCreate.fetchUnits TCreate.demoServer 2
      = some (.success [], [(1, 100), (2, 100)]) := by
  have h := (fetchUnits_pagination TCreate.demoServer (fun _ => []) 2
    (fun _ => rfl) (fun _ => rfl) (by omega)).1
  simpa [TCreate.pageUnits, TCreate.perPage, List.range'] using h

namespace Inventory

/-- A raw sub-unit object of a product in the Inventory screen's
response (`{unit_code, qr_code}`). -/
structure RawUnit where
  unit_code : String
  qr_code : Option String
deriving DecidableEq, Repr

/-- A raw product object as `fetchAllProducts` of
`src/app/components/Inventory.tsx` reads it; this screen keeps whole
products. `stock` is `none` when not a number, `units` is `none` when
not an array; prices stay wire strings. -/
structure RawProduct where
  id : Int
  name : String
  brand : String
  model : String
  size : String
  color : String
  stock : Option Int
  selling_price : String
  discount_price : Option String
  units : Option (List RawUnit)
deriving DecidableEq, Repr

/-- The validity filter of `fetchAllProducts` (lines 332-334): truthy
`id` and `name`, numeric `stock`, `units` an array. -/
def validProduct (entry : Option RawProduct) : Bool :=
  match entry with
  | none => false
  | some p => p.id ≠ 0 && p.name ≠ "" && p.stock.isSome && p.units.isSome

/-- The valid products of one page body, unwrapped. -/
def validRawProducts (productData : List (Option RawProduct)) : List RawProduct :=
  (productData.filter validProduct).filterMap id

/-- The outcome of one fetch attempt for one page: a transport/HTTP
failure (`!response.ok` or a thrown network error), a products field
that is present but not an array (line 328-330 throws `'Data produk
dari API tidak valid.'`), or a parsed body. A missing products field is
`ok []` (`data.data?.products || []`). -/
inductive PageOutcome where
  | httpFailure
  | notArray
  | ok (products : List (Option RawProduct)) (last_page : Option Nat)
deriving DecidableEq, Repr

/-- The error a failed attempt throws, as the retry loop rethrows it. -/
inductive PageFailure where
  | httpFailure
  | notArray
deriving DecidableEq, Repr

/-- The failure kind of an attempt's outcome (`none` for a success). -/
def outcomeFailure : PageOutcome → Option PageFailure
  | .httpFailure => some .httpFailure
  | .notArray => some .notArray
  | .ok _ _ => none

/-- The result the inner retry loop hands to the page loop. -/
inductive PageResult where
  | fetched (validProducts : List RawProduct) (last_page : Option Nat)
  | failed (err : PageFailure)
deriving DecidableEq, Repr

/-- The per-attempt maximum of `fetchAllProducts` (line 295). -/
def maxRetries : Nat := 3

/-- The inner `while (retries < maxRetries && !success)` loop of
`fetchAllProducts` (lines 298-345): `resp i` is the outcome of the
page's `i`-th fetch attempt (0-based). Any caught error — transport or
malformed shape alike — increments `retries`; reaching `maxRetries`
rethrows the error, otherwise the loop sleeps 1000 ms and retries.
Returns the result, the number of attempts issued and the number of
1-second sleeps. -/
def attemptPage (resp : Nat → PageOutcome) : Nat → Nat → PageResult × Nat × Nat
  | _, 0 => (.failed .httpFailure, 0, 0)
  | i, r + 1 =>
    match resp i with
    | .ok ps lp => (.fetched (validRawProducts ps) lp, 1, 0)
    | .httpFailure =>
      if r = 0 then (.failed .httpFailure, 1, 0)
      else
        let t := attemptPage resp (i + 1) r
        (t.1, t.2.1 + 1, t.2.2 + 1)
    | .notArray =>
      if r = 0 then (.failed .notArray, 1, 0)
      else
        let t := attemptPage resp (i + 1) r
        (t.1, t.2.1 + 1, t.2.2 + 1)

/-- The outer do/while page loop of `fetchAllProducts` (lines 297-347):
`server page i` is the outcome of the `i`-th attempt at `page`. Each
attempt's request is recorded in the trace (the page number fetched);
on a page's final failure the whole load fails surfacing that page's
last error, otherwise the valid products accumulate and the loop
continues while `currentApiPage <= lastPage` (`last_page || 1`).
Fuel-indexed; `none` = fuel exhausted. -/
def fetchAllLoop (server : Nat → Nat → PageOutcome) :
    Nat → Nat → List RawProduct → List Nat →
    Option ((List RawProduct ⊕ PageFailure) × List Nat)
  | 0, _, _, _ => none
  | fuel + 1, currentApiPage, acc, trace =>
    let t := attemptPage (server currentApiPage) 0 maxRetries
    let trace' := trace ++ List.replicate t.2.1 currentApiPage
    match t.1 with
    | .failed err => some (Sum.inr err, trace')
    | .fetched valids lp =>
      let acc' := acc ++ valids
      let lastPage := jsOrNat lp 1
      if currentApiPage + 1 ≤ lastPage then
        fetchAllLoop server fuel (currentApiPage + 1) acc' trace'
      else
        some (Sum.inl acc', trace')

/-- The whole load as `fetchAllProducts` runs it. -/
def fetchAllProducts (server : Nat → Nat → PageOutcome) (fuel : Nat) :
    Option ((List RawProduct ⊕ PageFailure) × List Nat) :=
  fetchAllLoop server fuel 1 [] []

/-- A server whose every response, on every attempt, has a malformed
(non-array) products field — the C7 counterexample input. -/
def badShapeServer : Nat → Nat → PageOutcome :=
  fun _ _ => PageOutcome.notArray

theorem outcomeFailure_cases (o : PageOutcome) (h : outcomeFailure o ≠ none) :
    o = PageOutcome.httpFailure ∨ o = PageOutcome.notArray := by
  cases o with
  | httpFailure => exact Or.inl rfl
  | notArray => exact Or.inr rfl
  | ok ps lp => exact absurd rfl h

theorem attemptPage_all_fail (resp : Nat → PageOutcome) (e : PageFailure)
    (h0 : outcomeFailure (resp 0) ≠ none) (h1 : outcomeFailure (resp 1) ≠ none)
    (h2 : outcomeFailure (resp 2) = some e) :
    attemptPage resp 0 3 = (.failed e, 3, 2) := by
  have h2' : outcomeFailure (resp 2) ≠ none := by rw [h2]; exact Option.some_ne_none e
  rcases outcomeFailure_cases _ h0 with ha | ha <;>
    rcases outcomeFailure_cases _ h1 with hb | hb <;>
    rcases outcomeFailure_cases _ h2' with hc | hc <;>
    · rw [hc, outcomeFailure] at h2
      injection h2 with h2
      subst h2
      simp [attemptPage, ha, hb, hc]

theorem attemptPage_second_try (resp : Nat → PageOutcome)
    (ps : List (Option RawProduct)) (lp : Option Nat)
    (h0 : outcomeFailure (resp 0) ≠ none) (h1 : resp 1 = PageOutcome.ok ps lp) :
    attemptPage resp 0 3 = (.fetched (validRawProducts ps) lp, 2, 1) := by
  rcases outcomeFailure_cases _ h0 with ha | ha <;>
    simp [attemptPage, ha, h1]

theorem attemptPage_first_try (resp : Nat → PageOutcome)
    (ps : List (Option RawProduct)) (lp : Option Nat)
    (h0 : resp 0 = PageOutcome.ok ps lp) :
    attemptPage resp 0 3 = (.fetched (validRawProducts ps) lp, 1, 0) := by
  simp [attemptPage, h0]

theorem fetchAllLoop_fail_spec (server : Nat → Nat → PageOutcome)
    (pages : Nat → List (Option RawProduct)) (lp : Nat → Option Nat)
    (k N : Nat) (e : PageFailure)
    (hok : ∀ p, 1 ≤ p → p < k → server p 0 = PageOutcome.ok (pages p) (lp p))
    (hlp : ∀ p, jsOrNat (lp p) 1 = N)
    (hfail0 : outcomeFailure (server k 0) ≠ none)
    (hfail1 : outcomeFailure (server k 1) ≠ none)
    (hfail2 : outcomeFailure (server k 2) = some e)
    (hkN : k ≤ N) :
    ∀ (fuel cur : Nat) (acc : List RawProduct) (trace : List Nat),
      1 ≤ cur → cur ≤ k → fuel = k + 1 - cur →
      fetchAllLoop server fuel cur acc trace
        = some (Sum.inr e,
                trace ++ List.range' cur (k - cur) ++ [k, k, k]) := by
  intro fuel
  induction fuel with
  | zero =>
      intro cur acc trace hc1 hck hfuel
      omega
  | succ fuel ih =>
      intro cur acc trace hc1 hck hfuel
      by_cases hcur : cur = k
      · subst hcur
        rw [fetchAllLoop]
        simp only [maxRetries]
        rw [attemptPage_all_fail (server cur) e hfail0 hfail1 hfail2]
        simp [List.replicate]
      · have hlt : cur < k := by omega
        rw [fetchAllLoop]
        simp only [maxRetries]
        rw [attemptPage_first_try (server cur) (pages cur) (lp cur) (hok cur hc1 hlt)]
        simp only
        rw [hlp cur]
        rw [if_pos (by omega)]
        have hrec := ih (cur + 1) (acc ++ validRawProducts (pages cur))
          (trace ++ List.replicate 1 cur) (by omega) (by omega) (by omega)
        rw [hrec]
        have hk : k - cur = (k - (cur + 1)) + 1 := by omega
        rw [hk, List.range'_succ]
        simp [List.replicate]

end Inventory

/-- Claim C6: each catalog page fetch is attempted at most 3 times with
a 1-second pause between attempts. A page failing on every attempt
triggers exactly 3 attempts (with 2 sleeps) and the whole load then
fails surfacing that page's last error, the earlier pages having been
fetched exactly once each (the trace shows no refetch of pages already
fetched successfully); a page that succeeds on its 2nd attempt
contributes its valid products after exactly 2 attempts and 1 sleep,
with no further attempts for that page. -/
theorem fetchAllProducts_retry (server : Nat → Nat → Inventory.PageOutcome)
    (pages : Nat → List (Option Inventory.RawProduct)) (lp : Nat → Option Nat)
    (k N : Nat) (e : Inventory.PageFailure)
    (hok : ∀ p, 1 ≤ p → p < k → server p 0 = Inventory.PageOutcome.ok (pages p) (lp p))
    (hlp : ∀ p, jsOrNat (lp p) 1 = N)
    (hfail0 : Inventory.outcomeFailure (server k 0) ≠ none)
    (hfail1 : Inventory.outcomeFailure (server k 1) ≠ none)
    (hfail2 : Inventory.outcomeFailure (server k 2) = some e)
    (hk1 : 1 ≤ k) (hkN : k ≤ N) :
    Inventory.attemptPage (server k) 0 3 = (.failed e, 3, 2) ∧
    Inventory.fetchAllProducts server k
      = some (Sum.inr e, List.range' 1 (k - 1) ++ [k, k, k]) ∧
    (∀ (resp : Nat → Inventory.PageOutcome) (ps : List (Option Inventory.RawProduct))
        (lp2 : Option Nat),
      Inventory.outcomeFailure (resp 0) ≠ none → resp 1 = Inventory.PageOutcome.ok ps lp2 →
      Inventory.attemptPage resp 0 3
        = (.fetched (Inventory.validRawProducts ps) lp2, 2, 1)) := by
  refine ⟨Inventory.attemptPage_all_fail (server k) e hfail0 hfail1 hfail2, ?_,
    fun resp ps lp2 ha hb => Inventory.attemptPage_second_try resp ps lp2 ha hb⟩
  have h := Inventory.fetchAllLoop_fail_spec server pages lp k N e hok hlp
    hfail0 hfail1 hfail2 hkN k 1 [] [] (le_refl 1) hk1 (by omega)
  unfold Inventory.fetchAllProducts
  rw [h]
  simp

/-- Witness for C6: a concrete two-page run — page 1 succeeds on its
first attempt reporting `last_page = 2`, page 2 fails on all three
attempts with transport errors — issues the trace `[1, 2, 2, 2]` and
fails the load with the transport error. -/
theorem fetchAllProducts_retry_witness :
    Inventory.fetchAllProducts
      (fun p _ => if p = 1 then Inventory.PageOutcome.ok [] (some 2)
                  else Inventory.PageOutcome.httpFailure) 2
      = some (Sum.inr Inventory.PageFailure.httpFailure, [1, 2, 2, 2]) := by
  have h := (fetchAllProducts_retry
    (fun p _ => if p = 1 then Inventory.PageOutcome.ok [] (some 2)
                else Inventory.PageOutcome.httpFailure)
    (fun _ => []) (fun _ => some 2) 2 2 Inventory.PageFailure.httpFailure
    (by intro p hp1 hp2; interval_cases p; simp)
    (fun p => rfl)
    (by simp [Inventory.outcomeFailure])
    (by simp [Inventory.outcomeFailure])
    (by simp [Inventory.outcomeFailure])
    (by omega) (by omega)).2.1
  simpa [List.range'] using h

/-- Counterexample to claim C7 as stated: a malformed (non-array)
products field is retried exactly like a transport error — a server
answering every attempt with a malformed shape receives 3 fetch
attempts for page 1 (trace `[1, 1, 1]`), not the claimed single
attempt, before the load fails surfacing the shape error. -/
theorem malformed_shape_retried_counterexample :
    Inventory.attemptPage (Inventory.badShapeServer 1) 0 3
      = (.failed Inventory.PageFailure.notArray, 3, 2) ∧
    Inventory.fetchAllProducts Inventory.badShapeServer 1
      = some (Sum.inr Inventory.PageFailure.notArray, [1, 1, 1]) ∧
    (3 : Nat) ≠ 1 := by
  refine ⟨by decide, by decide, by decide⟩

/-- Amended claim C7: in `fetchAllProducts` the malformed-shape throw is
caught by the same per-page retry loop as network/server errors: a page
whose response shape is malformed on every attempt is fetched 3 times
and then the load fails surfacing the shape error; a malformed shape on
the first attempt followed by a well-shaped response on the second is
retried and succeeds. (The `fetchUnits` variant in
TransactionCreate.tsx has no retry loop at all: there every failure,
shape or transport, is immediately fatal.) -/
theorem malformed_shape_retry (resp : Nat → Inventory.PageOutcome)
    (ps : List (Option Inventory.RawProduct)) (lp : Option Nat)
    (hshape : Inventory.outcomeFailure (resp 0) = some Inventory.PageFailure.notArray) :
    ((∀ i, resp i = Inventory.PageOutcome.notArray) →
      Inventory.attemptPage resp 0 3 = (.failed Inventory.PageFailure.notArray, 3, 2)) ∧
    (resp 1 = Inventory.PageOutcome.ok ps lp →
      Inventory.attemptPage resp 0 3
        = (.fetched (Inventory.validRawProducts ps) lp, 2, 1)) := by
  constructor
  · intro hall
    exact Inventory.attemptPage_all_fail resp Inventory.PageFailure.notArray
      (by rw [hall 0]; simp [Inventory.outcomeFailure])
      (by rw [hall 1]; simp [Inventory.outcomeFailure])
      (by rw [hall 2]; simp [Inventory.outcomeFailure])
  · intro hok
    exact Inventory.attemptPage_second_try resp ps lp
      (by rw [hshape]; exact Option.some_ne_none _) hok

/-- Witness for the amended claim C7: the all-malformed server is
attempted 3 times; a server malformed once then well-shaped succeeds on
the 2nd attempt. -/
theorem malformed_shape_retry_witness :
    Inventory.attemptPage (Inventory.badShapeServer 1) 0 3
      = (.failed Inventory.PageFailure.notArray, 3, 2) ∧
    Inventory.attemptPage
      (fun i => if i = 0 then Inventory.PageOutcome.notArray
                else Inventory.PageOutcome.ok [] none) 0 3
      = (.fetched [] none, 2, 1) := by
  constructor
  · exact (malformed_shape_retry (Inventory.badShapeServer 1) [] none rfl).1
      (fun _ => rfl)
  · exact (malformed_shape_retry
      (fun i => if i = 0 then Inventory.PageOutcome.notArray
                else Inventory.PageOutcome.ok [] none) [] none rfl).2 rfl

/-- JS `s.trim()`: strip leading and trailing whitespace. -/
def jsTrim (s : String) : String :=
  String.mk (((s.data.dropWhile Char.isWhitespace).reverse.dropWhile Char.isWhitespace).reverse)

/-- JS `s.startsWith(stem)`. -/
def strStartsWith (s stem : String) : Bool :=
  stem.data.isPrefixOf s.data

/-- The characters after the last occurrence of `mark` in a character
list (`none` when `mark` does not occur). -/
def afterLastOcc (mark : List Char) : List Char → Option (List Char)
  | [] => none
  | c :: rest =>
    match afterLastOcc mark rest with
    | some r => some r
    | none =>
      if mark.isPrefixOf (c :: rest) then some ((c :: rest).drop mark.length)
      else none

namespace PartFour

/-- The URL stem of the app's own inventory QR codes, tested by
`handleBarcodeScanned` (part_004 line 488). -/
def inventoryUrlStem : String :=
  "https://testingaplikasi.tokosepatusovan.com/inventory/"

/-- The capture of the regex `/\/unit\/([^/]+)$/` (part_004 line 489):
the trailing path segment after a `/unit/`, anchored at the end, hence
matched exactly when the text after the last `/unit/` is nonempty and
slash-free. -/
def unitPathCapture (s : String) : Option (String) :=
  match afterLastOcc ("/unit/".data) s.data with
  | none => none
  | some seg =>
    if seg ≠ [] ∧ ¬ seg.contains '/' then some (String.mk seg) else none

/-- The unit code `handleBarcodeScanned` extracts from the trimmed scan
(part_004 lines 486-495): the `/unit/` trailing segment for URLs
starting with the app's own inventory stem (`null` when the regex does
not match), otherwise the raw scanned string. -/
def extractedCode (scannedCode : String) : Option String :=
  if strStartsWith scannedCode inventoryUrlStem then unitPathCapture scannedCode
  else some scannedCode

/-- `unitCode && u.unit_code.toLowerCase() === unitCode.toLowerCase()`
(`""` is falsy). -/
def directMatch (c : String) (u : Unit) : Bool :=
  c ≠ "" && jsToLower u.unit_code == jsToLower c

/-- `u.qr_code && u.qr_code.toLowerCase() === scannedCode.toLowerCase()`
(`null` and `""` are falsy). -/
def qrMatch (scannedCode : String) (u : Unit) : Bool :=
  match u.qr_code with
  | some q => q ≠ "" && jsToLower q == jsToLower scannedCode
  | none => false

/-- The `availableUnits.find(...)` predicate of `handleBarcodeScanned`
(part_004 lines 509-513). -/
def scanPredicate (scannedCode : String) (u : Unit) : Bool :=
  (match extractedCode scannedCode with
   | some c => directMatch c u
   | none => false) || qrMatch scannedCode u

/-- The scanned-code-to-unit resolution of `handleBarcodeScanned`
(part_004 lines 481-537): trim the scan, extract the code, and return
the first available unit whose `unit_code` matches the extracted code
case-insensitively or whose truthy `qr_code` equals the whole trimmed
scan case-insensitively; `none` surfaces the `Unit Tidak Ditemukan`
(not-found) popup. -/
def resolveScannedCode (availableUnits : List Unit) (data : String) : Option Unit :=
  let scannedCode := jsTrim data
  availableUnits.find? (fun u => scanPredicate scannedCode u)

/-- A catalog unit with code `U1` and no stored QR URL (the C9
counterexample catalog). -/
def foreignUrlUnit : Unit :=
  { product_id := 7
    product_name := "r"
    brand := "B"
    model := "M"
    color := "-"
    size := "-"
    unit_code := "U1"
    qr_code := none
    selling_price := 100
    discount_price := none
    stock := 5
    is_active := 1 }

end PartFour

/-- Counterexample to claim C9 as stated: the scanned string
`https://example.com/unit/U1` is a URL whose trailing path segment
`U1` equals the catalog unit's `unitCode` (case-insensitively), yet the
resolution returns `none` — URL extraction only applies to URLs
starting with the app's own inventory stem, so the whole foreign URL is
compared against `unit_code` and fails. -/
theorem scan_resolution_counterexample :
    PartFour.unitPathCapture "https://example.com/unit/U1" = some "U1" ∧
    jsToLower "U1" = jsToLower PartFour.foreignUrlUnit.unit_code ∧
    PartFour.resolveScannedCode [PartFour.foreignUrlUnit] "https://example.com/unit/U1"
      = none := by
  refine ⟨by decide, by decide, by decide⟩

/-- Amended claim C9: `resolveScannedCode` returns the first catalog
unit matched by the scan predicate, and `NotFound` exactly when no unit
matches it — where the predicate compares the extracted code against
`unit_code` case-insensitively (the extracted code being the trailing
`/unit/` path segment only for URLs starting with the app's own
inventory stem, and the whole trimmed scan otherwise), or the unit's
truthy `qr_code` against the whole trimmed scan case-insensitively. -/
theorem scan_resolution (units : List PartFour.Unit) (data : String) :
    (∀ u, PartFour.resolveScannedCode units data = some u →
      u ∈ units ∧ PartFour.scanPredicate (jsTrim data) u = true) ∧
    (PartFour.resolveScannedCode units data = none ↔
      ∀ u ∈ units, PartFour.scanPredicate (jsTrim data) u = false) := by
  constructor
  · intro u hu
    exact ⟨List.mem_of_find?_eq_some hu, List.find?_some hu⟩
  · unfold PartFour.resolveScannedCode
    rw [List.find?_eq_none]
    constructor
    · intro h u hu
      have := h u hu
      simpa using this
    · intro h u hu
      simp [h u hu]

namespace TIndex

/-- `WIB_OFFSET = 7 * 60 * 60 * 1000` — the fixed UTC+7 millisecond
offset of `src/app/components/TransactionIndex.tsx` (line 640) and
`src/unnamed/part_001` (line 97). -/
def WIB_OFFSET : Int := 7 * 60 * 60 * 1000

/-- Milliseconds per day (ECMAScript `msPerDay`). -/
def msPerDay : Int := 86400000

/-! The embedding of `new Date(ms).getUTCFullYear/getUTCMonth/getUTCDate`:
ECMAScript extracts the proleptic-Gregorian civil date of
`floor(ms / msPerDay)` days since 1970-01-01. `civilFromDays` is the
standard era-based algorithm for that extraction (divisors are positive,
so Lean's `Int` division `/`, which is Euclidean, is exactly the floor
division the algorithm needs). -/

/-- Days shifted to the era origin 0000-03-01. -/
def civilZ (z : Int) : Int := z + 719468

/-- The 400-year era of a day number. -/
def civilEra (z : Int) : Int := civilZ z / 146097

/-- Day-of-era, in `[0, 146096]`. -/
def civilDoe (z : Int) : Int := civilZ z - civilEra z * 146097

/-- Year-of-era, in `[0, 399]`. -/
def civilYoe (z : Int) : Int :=
  (civilDoe z - civilDoe z / 1460 + civilDoe z / 36524 - civilDoe z / 146096) / 365

/-- Day-of-year of the March-based year, in `[0, 365]`. -/
def civilDoy (z : Int) : Int :=
  civilDoe z - (365 * civilYoe z + civilYoe z / 4 - civilYoe z / 100)

/-- March-based month index, in `[0, 11]` (0 = March, 11 = February). -/
def civilMp (z : Int) : Int := (5 * civilDoy z + 2) / 153

/-- Day of month (`getUTCDate`). -/
def civilDay (z : Int) : Int := civilDoy z - (153 * civilMp z + 2) / 5 + 1

/-- Calendar month 1-12 (`getUTCMonth() + 1`). -/
def civilMonth (z : Int) : Int :=
  if civilMp z < 10 then civilMp z + 3 else civilMp z - 9

/-- Calendar year (`getUTCFullYear`). -/
def civilYear (z : Int) : Int :=
  civilYoe z + civilEra z * 400 + (if civilMonth z ≤ 2 then 1 else 0)

/-- The civil date `(year, month, day)` of a day number. -/
def civilFromDays (z : Int) : Int × Int × Int :=
  (civilYear z, civilMonth z, civilDay z)

/-- The shifted (March-based) year of a civil date. -/
def shiftedY (y m : Int) : Int := if m ≤ 2 then y - 1 else y

/-- Era of a civil date. -/
def fwdEra (y m : Int) : Int := shiftedY y m / 400

/-- Year-of-era of a civil date. -/
def fwdYoe (y m : Int) : Int := shiftedY y m - fwdEra y m * 400

/-- March-based month index of a calendar month. -/
def fwdMp (m : Int) : Int := if 2 < m then m - 3 else m + 9

/-- Day-of-year of a civil date in its March-based year. -/
def fwdDoy (m d : Int) : Int := (153 * fwdMp m + 2) / 5 + d - 1

/-- Day-of-era of a civil date. -/
def fwdDoe (y m d : Int) : Int :=
  365 * fwdYoe y m + fwdYoe y m / 4 - fwdYoe y m / 100 + fwdDoy m d

/-- The day number (days since 1970-01-01) of a civil date — the
specification-side inverse of `civilFromDays`. -/
def daysFromCivil (y m d : Int) : Int :=
  fwdEra y m * 146097 + fwdDoe y m d - 719468

/-- Length of month `m` of Gregorian year `y`. -/
def daysInMonth (y m : Int) : Int :=
  if m = 2 then (if (y % 4 = 0 ∧ y % 100 ≠ 0) ∨ y % 400 = 0 then 29 else 28)
  else if m = 4 ∨ m = 6 ∨ m = 9 ∨ m = 11 then 30
  else 31

/-- A valid proleptic-Gregorian civil date. -/
def validCivil (y m d : Int) : Prop :=
  1 ≤ m ∧ m ≤ 12 ∧ 1 ≤ d ∧ d ≤ daysInMonth y m

/-- JS `n.toString().padStart(2, '0')` for the day/month fields. -/
def pad2 (n : Int) : String :=
  if n < 10 then "0" ++ toString n else toString n

/-- `formatInvoiceNumber` of `src/app/components/TransactionIndex.tsx`
(lines 671-678) and `src/unnamed/part_001` (lines 135-142): build a
`Date` at `t + WIB_OFFSET` milliseconds and format
`INV-` + 2-digit `getUTCDate` + 2-digit `getUTCMonth()+1` +
`getUTCFullYear`. The input is embedded as the UTC timestamp `t` in
milliseconds of the stored date string. -/
def formatInvoiceNumber (t : Int) : String :=
  "INV-" ++ pad2 (civilFromDays ((t + WIB_OFFSET) / msPerDay)).2.2
        ++ pad2 (civilFromDays ((t + WIB_OFFSET) / msPerDay)).2.1
        ++ toString (civilFromDays ((t + WIB_OFFSET) / msPerDay)).1

theorem daysInMonth_le (y m : Int) : daysInMonth y m ≤ 31 := by
  unfold daysInMonth
  split_ifs <;> omega

set_option maxHeartbeats 4000000 in
theorem yoe_recover (yoe doy doe : Int)
    (h1 : 0 ≤ yoe) (h2 : yoe ≤ 399) (hdoy : 0 ≤ doy)
    (hdoy2 : doy ≤ 364 ∨ (doy ≤ 365 ∧ (((yoe + 1) % 4 = 0 ∧ (yoe + 1) % 100 ≠ 0) ∨ yoe = 399)))
    (hdoe : doe = 365 * yoe + yoe / 4 - yoe / 100 + doy) :
    (doe - doe / 1460 + doe / 36524 - doe / 146096) / 365 = yoe ∧ 0 ≤ doe ∧ doe ≤ 146096 := by
  interval_cases yoe <;> omega

theorem month_recover (mp d doy : Int)
    (hmp0 : 0 ≤ mp) (hmp1 : mp ≤ 11) (hd1 : 1 ≤ d)
    (hd2 : d ≤ if mp = 1 ∨ mp = 3 ∨ mp = 6 ∨ mp = 8 then 30 else if mp = 11 then 29 else 31)
    (hdoy : doy = (153 * mp + 2) / 5 + d - 1) :
    (5 * doy + 2) / 153 = mp ∧ 0 ≤ doy ∧ doy ≤ 365 := by
  interval_cases mp <;> omega

theorem civilFromDays_spec (era yoe mp d doy doe z : Int)
    (h1 : 0 ≤ yoe) (h2 : yoe ≤ 399)
    (hmp0 : 0 ≤ mp) (hmp1 : mp ≤ 11)
    (hd1 : 1 ≤ d)
    (hd2 : d ≤ if mp = 1 ∨ mp = 3 ∨ mp = 6 ∨ mp = 8 then 30 else if mp = 11 then 29 else 31)
    (hdoy : doy = (153 * mp + 2) / 5 + d - 1)
    (hleap : doy ≤ 364 ∨ (((yoe + 1) % 4 = 0 ∧ (yoe + 1) % 100 ≠ 0) ∨ yoe = 399))
    (hdoe : doe = 365 * yoe + yoe / 4 - yoe / 100 + doy)
    (hz : z = era * 146097 + doe - 719468) :
    civilFromDays z
      = (yoe + era * 400 + (if 10 ≤ mp then 1 else 0),
         (if mp < 10 then mp + 3 else mp - 9), d) := by
  obtain ⟨hmrec, hdoy0, hdoy365⟩ := month_recover mp d doy hmp0 hmp1 hd1 hd2 hdoy
  have hleap' : doy ≤ 364 ∨
      (doy ≤ 365 ∧ (((yoe + 1) % 4 = 0 ∧ (yoe + 1) % 100 ≠ 0) ∨ yoe = 399)) := by
    rcases hleap with h | h
    · exact Or.inl h
    · exact Or.inr ⟨hdoy365, h⟩
  obtain ⟨hyrec, hdoe0, hdoe1⟩ := yoe_recover yoe doy doe h1 h2 hdoy0 hleap' hdoe
  have hZ : civilZ z = era * 146097 + doe := by unfold civilZ; omega
  have hEra : civilEra z = era := by unfold civilEra; rw [hZ]; omega
  have hDoe : civilDoe z = doe := by unfold civilDoe; rw [hZ, hEra]; omega
  have hYoe : civilYoe z = yoe := by unfold civilYoe; rw [hDoe]; exact hyrec
  have hDoy : civilDoy z = doy := by unfold civilDoy; rw [hDoe, hYoe]; omega
  have hMp : civilMp z = mp := by unfold civilMp; rw [hDoy]; exact hmrec
  have hDay : civilDay z = d := by unfold civilDay; rw [hMp, hDoy]; omega
  have hMonth : civilMonth z = (if mp < 10 then mp + 3 else mp - 9) := by
    unfold civilMonth; rw [hMp]
  have hYear : civilYear z = yoe + era * 400 + (if 10 ≤ mp then 1 else 0) := by
    unfold civilYear
    rw [hYoe, hEra, hMonth]
    by_cases hc : mp < 10
    · rw [if_pos hc, if_neg (by omega), if_neg (by omega)]
    · rw [if_neg hc, if_pos (by omega), if_pos (by omega)]
  unfold civilFromDays
  rw [hYear, hMonth, hDay]

theorem roundtrip_march_dec (y m d : Int)
    (hm1 : 3 ≤ m) (hm2 : m ≤ 12) (hd1 : 1 ≤ d) (hd2 : d ≤ daysInMonth y m) :
    civilFromDays (daysFromCivil y m d) = (y, m, d) := by
  have hs : shiftedY y m = y := by unfold shiftedY; rw [if_neg (by omega)]
  have hmp : fwdMp m = m - 3 := by unfold fwdMp; rw [if_pos (by omega)]
  have hyoe0 : 0 ≤ fwdYoe y m := by unfold fwdYoe fwdEra; omega
  have hyoe1 : fwdYoe y m ≤ 399 := by unfold fwdYoe fwdEra; omega
  have hd31 : d ≤ 31 := le_trans hd2 (daysInMonth_le y m)
  have hd2' : d ≤ if m - 3 = 1 ∨ m - 3 = 3 ∨ m - 3 = 6 ∨ m - 3 = 8 then 30
      else if m - 3 = 11 then 29 else 31 := by
    unfold daysInMonth at hd2
    rw [if_neg (by omega)] at hd2
    by_cases h30 : m = 4 ∨ m = 6 ∨ m = 9 ∨ m = 11
    · rw [if_pos h30] at hd2
      rw [if_pos (by omega)]
      exact hd2
    · rw [if_neg h30] at hd2
      rw [if_neg (by omega), if_neg (by omega)]
      exact hd2
  have hdoy364 : fwdDoy m d ≤ 364 := by
    unfold fwdDoy
    rw [hmp]
    omega
  have h := civilFromDays_spec (fwdEra y m) (fwdYoe y m) (m - 3) d (fwdDoy m d)
    (fwdDoe y m d) (daysFromCivil y m d)
    hyoe0 hyoe1 (by omega) (by omega) hd1 hd2'
    (by unfold fwdDoy; rw [hmp])
    (Or.inl hdoy364)
    rfl
    rfl
  rw [h]
  rw [if_neg (by omega : ¬ 10 ≤ m - 3), if_pos (by omega : m - 3 < 10)]
  have hy : fwdYoe y m + fwdEra y m * 400 + 0 = y := by
    unfold fwdYoe fwdEra
    rw [hs]
    omega
  rw [Prod.mk.injEq, Prod.mk.injEq]
  exact ⟨hy, by omega, rfl⟩

theorem roundtrip_jan (y d : Int)
    (hd1 : 1 ≤ d) (hd2 : d ≤ daysInMonth y 1) :
    civilFromDays (daysFromCivil y 1 d) = (y, 1, d) := by
  have hs : shiftedY y 1 = y - 1 := by unfold shiftedY; rw [if_pos (by omega)]
  have hmp : fwdMp 1 = 10 := by unfold fwdMp; rw [if_neg (by omega)]; norm_num
  have hyoe0 : 0 ≤ fwdYoe y 1 := by unfold fwdYoe fwdEra; omega
  have hyoe1 : fwdYoe y 1 ≤ 399 := by unfold fwdYoe fwdEra; omega
  have hd31 : d ≤ 31 := by
    unfold daysInMonth at hd2
    rw [if_neg (by omega), if_neg (by omega)] at hd2
    exact hd2
  have hd2' : d ≤ if (10 : Int) = 1 ∨ (10 : Int) = 3 ∨ (10 : Int) = 6 ∨ (10 : Int) = 8 then 30
      else if (10 : Int) = 11 then 29 else 31 := by
    rw [if_neg (by omega), if_neg (by omega)]
    exact hd31
  have hdoy364 : fwdDoy 1 d ≤ 364 := by
    unfold fwdDoy
    rw [hmp]
    omega
  have h := civilFromDays_spec (fwdEra y 1) (fwdYoe y 1) 10 d (fwdDoy 1 d)
    (fwdDoe y 1 d) (daysFromCivil y 1 d)
    hyoe0 hyoe1 (by omega) (by omega) hd1 hd2'
    (by unfold fwdDoy; rw [hmp])
    (Or.inl hdoy364)
    rfl
    rfl
  rw [h]
  rw [if_pos (by omega : (10 : Int) ≤ 10), if_neg (by omega : ¬ (10 : Int) < 10)]
  have hy : fwdYoe y 1 + fwdEra y 1 * 400 + 1 = y := by
    unfold fwdYoe fwdEra
    rw [hs]
    omega
  rw [Prod.mk.injEq, Prod.mk.injEq]
  exact ⟨hy, by omega, rfl⟩

theorem roundtrip_feb (y d : Int)
    (hd1 : 1 ≤ d) (hd2 : d ≤ daysInMonth y 2) :
    civilFromDays (daysFromCivil y 2 d) = (y, 2, d) := by
  have hs : shiftedY y 2 = y - 1 := by unfold shiftedY; rw [if_pos (by omega)]
  have hmp : fwdMp 2 = 11 := by unfold fwdMp; rw [if_neg (by omega)]; norm_num
  have hyoe0 : 0 ≤ fwdYoe y 2 := by unfold fwdYoe fwdEra; omega
  have hyoe1 : fwdYoe y 2 ≤ 399 := by unfold fwdYoe fwdEra; omega
  unfold daysInMonth at hd2
  rw [if_pos rfl] at hd2
  have hd29 : d ≤ 29 := by
    by_cases hly : (y % 4 = 0 ∧ y % 100 ≠ 0) ∨ y % 400 = 0
    · rw [if_pos hly] at hd2; exact hd2
    · rw [if_neg hly] at hd2; omega
  have hd2' : d ≤ if (11 : Int) = 1 ∨ (11 : Int) = 3 ∨ (11 : Int) = 6 ∨ (11 : Int) = 8 then 30
      else if (11 : Int) = 11 then 29 else 31 := by
    rw [if_neg (by omega), if_pos rfl]
    exact hd29
  have hleap : fwdDoy 2 d ≤ 364 ∨
      (((fwdYoe y 2 + 1) % 4 = 0 ∧ (fwdYoe y 2 + 1) % 100 ≠ 0) ∨ fwdYoe y 2 = 399) := by
    by_cases hly : (y % 4 = 0 ∧ y % 100 ≠ 0) ∨ y % 400 = 0
    · refine Or.inr ?_
      unfold fwdYoe fwdEra
      rw [hs]
      omega
    · rw [if_neg hly] at hd2
      refine Or.inl ?_
      unfold fwdDoy
      rw [hmp]
      omega
  have h := civilFromDays_spec (fwdEra y 2) (fwdYoe y 2) 11 d (fwdDoy 2 d)
    (fwdDoe y 2 d) (daysFromCivil y 2 d)
    hyoe0 hyoe1 (by omega) (by omega) hd1 hd2'
    (by unfold fwdDoy; rw [hmp])
    hleap
    rfl
    rfl
  rw [h]
  rw [if_pos (by omega : (10 : Int) ≤ 11), if_neg (by omega : ¬ (11 : Int) < 10)]
  have hy : fwdYoe y 2 + fwdEra y 2 * 400 + 1 = y := by
    unfold fwdYoe fwdEra
    rw [hs]
    omega
  rw [Prod.mk.injEq, Prod.mk.injEq]
  exact ⟨hy, by omega, rfl⟩

theorem civil_roundtrip (y m d : Int) (hv : validCivil y m d) :
    civilFromDays (daysFromCivil y m d) = (y, m, d) := by
  obtain ⟨hm1, hm2, hd1, hd2⟩ := hv
  rcases (by omega : m = 1 ∨ m = 2 ∨ 3 ≤ m) with h | h | h
  · subst h; exact roundtrip_jan y d hd1 hd2
  · subst h; exact roundtrip_feb y d hd1 hd2
  · exact roundtrip_march_dec y m d h hm2 hd1 hd2

end TIndex

/-- Claim C8: for every UTC timestamp `t` (milliseconds), when the
instant `t` plus the fixed 7-hour offset falls on civil day `(y, m, d)`
— that is, `t + WIB_OFFSET` is within the day `daysFromCivil y m d` —
`formatInvoiceNumber t` equals `INV-` followed by the two-digit day,
two-digit month and the year of that shifted instant. The embedding is
a pure function of `t` alone (plus the fixed offset), so the result is
deterministic and independent of any runtime timezone. -/
theorem formatInvoiceNumber_correct (t y m d r : Int)
    (hv : TIndex.validCivil y m d)
    (ht : t + TIndex.WIB_OFFSET = TIndex.daysFromCivil y m d * TIndex.msPerDay + r)
    (hr0 : 0 ≤ r) (hr1 : r < TIndex.msPerDay) :
    TIndex.formatInvoiceNumber t
      = "INV-" ++ TIndex.pad2 d ++ TIndex.pad2 m ++ toString y := by
  have hday : (t + TIndex.WIB_OFFSET) / TIndex.msPerDay = TIndex.daysFromCivil y m d := by
    rw [ht]
    unfold TIndex.msPerDay at hr1 ⊢
    omega
  unfold TIndex.formatInvoiceNumber
  rw [hday, TIndex.civil_roundtrip y m d hv]

/-- Witness for C8: the spec §8 Scenario E timestamp
`2025-01-05T20:30:00Z` (= 1736109000000 ms) yields `INV-06012025` —
the UTC+7 shift moves the date forward past midnight to 2025-01-06. -/
theorem formatInvoiceNumber_witness :
    TIndex.formatInvoiceNumber 1736109000000 = "INV-06012025" := by
  have hv : TIndex.validCivil 2025 1 6 := by
    unfold TIndex.validCivil TIndex.daysInMonth
    norm_num
  have h := formatInvoiceNumber_correct 1736109000000 2025 1 6 12600000 hv
    (by decide) (by decide) (by decide)
  rw [h]
  decide
